import Mathlib

/-!
Shallow embedding of the y2j converter (src/main.rs): a YAML-to-JSON
conversion utility over the fixed recursive schema
`struct Notes { title: String, notes: Option<Vec<Notes>> }`, with a
single-file converter `convert` and a directory batch runner `convert_dir`.

Modelling choices, stated once here:
* Paths are lists of components (`FsPath := List String`); `PathBuf::join`
  appends a component, `Path::parent` drops the last component (none for
  the empty path), matching the Rust component-level semantics.
* The textual YAML layer is abstracted to the parsed value tree `Yaml`:
  `read_to_string` followed by `serde_yaml::from_str` is modelled as
  looking up a file's `Yaml` value and running the serde-derive
  deserializer `notesFromYaml` on it.  A file whose content is not a
  valid `Notes` mapping models a malformed input (both YAML syntax errors
  and schema errors surface as the single `Error::DeError` kind in the
  source, so this abstraction loses no distinction the program makes).
  Mapping keys are strings, as serde-derive field matching requires.
* Filesystem effects are recorded as an explicit trace (`Eff`), in the
  order the source performs them; the error branches of `convert` return
  before the corresponding effect, exactly as the `return Err(..)` /
  `?` statements do in the source.
* Directory enumeration (`walkdir::WalkDir::new(p).max_depth(1).min_depth(1)`)
  yields exactly the direct children of the directory, each either an
  `Ok` entry carrying a proper file name (never ".", "..", or empty) and
  a file-type flag, or an `Err` item; `convert_dir` receives that listing
  as data.
-/

/-- Path in the filesystem, as its list of components. -/
abbrev FsPath := List String

/-- Model of `PathBuf::join` with a single relative component. -/
def FsPath.join (p : FsPath) (name : String) : FsPath := p ++ [name]

/-- Model of `Path::parent`: drop the final component; `none` for the
empty path (Rust returns `None` for a root or empty path). -/
def FsPath.parent : FsPath → Option FsPath
  | [] => none
  | ps => some ps.dropLast

/-- The error enum of src/main.rs lines 98-103. -/
inductive Error where
  | SerError (msg : String)
  | DeError (msg : String)
  | Io (msg : String)
deriving DecidableEq, Repr

/-- YAML value tree (the parse result of the source-format text). -/
inductive Yaml where
  | null
  | bool (b : Bool)
  | int (n : Int)
  | str (s : String)
  | seq (items : List Yaml)
  | map (entries : List (String × Yaml))

/-- Is this YAML value a string scalar? -/
def Yaml.isStr : Yaml → Bool
  | .str _ => true
  | _ => false

/-- The document model of src/main.rs lines 150-154:
`struct Notes { title: String, notes: Option<Vec<Notes>> }`. -/
inductive Notes where
  | mk (title : String) (notes : Option (List Notes))

/-- Projection for the `title` field. -/
def Notes.title : Notes → String
  | ⟨t, _⟩ => t

/-- Projection for the `notes` field. -/
def Notes.notes : Notes → Option (List Notes)
  | ⟨_, n⟩ => n

mutual

/-- Serde-derive deserialization of `Notes` from a YAML value
(`serde_yaml::from_str` for the derived `Deserialize` of lines 150-154):
the value must be a mapping; its entries are visited in order; `title`
must be a string and is required; `notes` is optional, accepting null
(absent list) or a sequence of child documents; a duplicate known field
is an error; unknown fields are ignored (serde's default, no
`deny_unknown_fields` in the source). -/
def notesFromYaml : Yaml → Except String Notes
  | .map kvs => do
      let (tOpt, nOpt) ← fieldsFromKvs kvs none none
      match tOpt with
      | some t => pure (Notes.mk t (nOpt.getD none))
      | none => throw "missing field title"
  | _ => throw "invalid type: expected struct Notes"

/-- Sequential field visitor for the `Notes` mapping: accumulates the
`title` and `notes` fields seen so far, erroring on a duplicate known
field or an ill-typed value, and skipping unknown keys. -/
def fieldsFromKvs : List (String × Yaml) → Option String →
    Option (Option (List Notes)) →
    Except String (Option String × Option (Option (List Notes)))
  | [], tOpt, nOpt => pure (tOpt, nOpt)
  | (k, v) :: rest, tOpt, nOpt =>
      if k = "title" then
        match tOpt with
        | some _ => throw "duplicate field title"
        | none =>
          match v with
          | .str s => fieldsFromKvs rest (some s) nOpt
          | _ => throw "title: invalid type, expected a string"
      else if k = "notes" then
        match nOpt with
        | some _ => throw "duplicate field notes"
        | none =>
          match v with
          | .null => fieldsFromKvs rest tOpt (some none)
          | .seq items => do
              let children ← notesListFromYaml items
              fieldsFromKvs rest tOpt (some (some children))
          | _ => throw "notes: invalid type, expected a sequence or null"
      else fieldsFromKvs rest tOpt nOpt

/-- Deserialize each element of a YAML sequence as a child `Notes`. -/
def notesListFromYaml : List Yaml → Except String (List Notes)
  | [] => pure []
  | y :: ys => do
      let n ← notesFromYaml y
      let ns ← notesListFromYaml ys
      pure (n :: ns)

end

mutual

/-- Modelled from the spec: `encode_as_source_format` — the YAML value
produced by serializing a `Notes` with its derived `Serialize` impl
(`serde_yaml::to_string` at the value level; this operation appears only
in the spec's round-trip property, not in src/main.rs): a mapping with
`title` bound to the title string and `notes` bound to null when the
children list is absent, or to the sequence of serialized children. -/
def Notes.toYamlValue : Notes → Yaml
  | ⟨t, none⟩ => .map [("title", .str t), ("notes", .null)]
  | ⟨t, some children⟩ =>
      .map [("title", .str t), ("notes", .seq (notesListToYaml children))]

/-- Serialize each child document in order. -/
def notesListToYaml : List Notes → List Yaml
  | [] => []
  | n :: ns => n.toYamlValue :: notesListToYaml ns

end

/-- JSON value tree (only the constructors the `Notes` serializer can
produce). -/
inductive Json where
  | null
  | str (s : String)
  | arr (items : List Json)
  | obj (entries : List (String × Json))

/-- One hexadecimal digit. -/
def hexDigit (n : Nat) : Char :=
  if n < 10 then Char.ofNat (48 + n) else Char.ofNat (87 + (n % 16))

/-- Escape one character as serde_json's compact writer does: quote,
backslash, and the short escapes for common control characters; other
control characters become a \u00XX escape; everything else is kept. -/
def escapeChar (c : Char) : String :=
  if c = '"' then "\\\""
  else if c = '\\' then "\\\\"
  else if c = '\n' then "\\n"
  else if c = '\r' then "\\r"
  else if c = '\t' then "\\t"
  else if c = Char.ofNat 8 then "\\b"
  else if c = Char.ofNat 12 then "\\f"
  else if c.toNat < 32 then
    String.mk ['\\', 'u', '0', '0', hexDigit (c.toNat / 16), hexDigit (c.toNat % 16)]
  else String.singleton c

/-- Escape every character of a string. -/
def escapeString (s : String) : String :=
  s.data.foldl (fun acc c => acc ++ escapeChar c) ""

/-- Render a JSON string literal, quotes included. -/
def renderString (s : String) : String := "\"" ++ escapeString s ++ "\""

mutual

/-- Compact JSON rendering, as `serde_json::to_string` produces it:
no whitespace, object fields in the order given. -/
def Json.render : Json → String
  | .null => "null"
  | .str s => renderString s
  | .arr items => "[" ++ renderArr items ++ "]"
  | .obj entries => "\x7b" ++ renderObj entries ++ "\x7d"

/-- Render array elements separated by commas. -/
def renderArr : List Json → String
  | [] => ""
  | [x] => x.render
  | x :: y :: rest => x.render ++ "," ++ renderArr (y :: rest)

/-- Render object entries separated by commas. -/
def renderObj : List (String × Json) → String
  | [] => ""
  | [(k, v)] => renderString k ++ ":" ++ v.render
  | (k, v) :: e :: rest => renderString k ++ ":" ++ v.render ++ "," ++ renderObj (e :: rest)

end

mutual

/-- The JSON value produced by the derived `Serialize` impl of `Notes`
(lines 150-154): an object with the fields in declaration order, `title`
first, then `notes`, where an absent children list serializes as null
and a present list as an array of the serialized children. -/
def Notes.toJsonValue : Notes → Json
  | ⟨t, none⟩ => .obj [("title", .str t), ("notes", .null)]
  | ⟨t, some children⟩ =>
      .obj [("title", .str t), ("notes", .arr (notesListToJson children))]

/-- Serialize each child document in order. -/
def notesListToJson : List Notes → List Json
  | [] => []
  | n :: ns => n.toJsonValue :: notesListToJson ns

end

/-- Model of `Notes::to_json` (src/main.rs lines 161-163):
`serde_json::to_string(&self)`.  For this schema serialization cannot
fail, so the model is total; the source's `Result` is always `Ok`. -/
def Notes.to_json (n : Notes) : String := n.toJsonValue.render

/-- One filesystem-relevant effect of a conversion, in the order the
source performs them (`println!` progress output is elided as the spec
allows). -/
inductive Eff where
  | read (p : FsPath)
  | decode
  | encode
  | write (p : FsPath) (content : String)
deriving DecidableEq, Repr

/-- Filesystem state: the set of existing entries (directories and other
entries that are not readable files), and the readable files with their
parsed YAML content. -/
structure FS where
  existing : List FsPath
  files : List (FsPath × Yaml)

/-- Model of `Path::exists`: the path is an existing entry or a file. -/
def FS.existsPath (fs : FS) (p : FsPath) : Bool :=
  decide (p ∈ fs.existing ∨ ∃ pr ∈ fs.files, pr.1 = p)

/-- Model of `read_to_string` composed with YAML parsing: the parsed
content of the file at `p`, or `none` when `p` is not a readable file. -/
def FS.readYaml (fs : FS) (p : FsPath) : Option Yaml :=
  (fs.files.find? (fun pr => pr.1 == p)).map (fun pr => pr.2)

/-- Model of `convert` (src/main.rs lines 83-97): check that the input
exists, that the output path has a parent and that the parent exists,
then read, decode, encode, and write, stopping at the first failure.
The returned trace lists the effects performed up to that point. -/
def convert (fs : FS) (from_path to_path : FsPath) :
    List Eff × Except Error Unit :=
  if !fs.existsPath from_path then
    ([], .error (.Io "infile does not exist"))
  else
    match to_path.parent with
    | none => ([], .error (.Io "outfile doesn't have a parent"))
    | some to_dir =>
      if !fs.existsPath to_dir then
        ([], .error (.Io "outfile directory does not exists"))
      else
        match fs.readYaml from_path with
        | none => ([.read from_path], .error (.Io "I/O Error: failed to read the input file"))
        | some y =>
          match notesFromYaml y with
          | .error msg => ([.read from_path, .decode], .error (.DeError msg))
          | .ok notes =>
            ([.read from_path, .decode, .encode, .write to_path notes.to_json], .ok ())

/-- The source's eligibility filter (line 71):
`file_name.ends_with(".yaml") || file_name.ends_with(".yml")`.
String suffix matching is spelled out on the character lists so that it
is case-sensitive exactly as Rust's `str::ends_with` is. -/
def strEndsWith (s suffix : String) : Bool :=
  decide (s.data.drop (s.data.length - suffix.data.length) = suffix.data)

/-- Eligibility of a directory-entry name for conversion. -/
def eligibleName (name : String) : Bool :=
  strEndsWith name ".yaml" || strEndsWith name ".yml"

/-- Characters before the last '.' of the list, or `none` if there is no
'.' in it. -/
def beforeLastDot : List Char → Option (List Char)
  | [] => none
  | c :: rest =>
    match beforeLastDot rest with
    | some s => some (c :: s)
    | none => if c = '.' then some [] else none

/-- Rust's `Path::file_stem` on a proper file name: the portion before
the last '.' that is not the leading character; a name whose only '.' is
the leading one (such as ".yaml") is its own stem, because Rust treats
such a dotfile as having no extension. -/
def rustFileStem (name : String) : String :=
  match name.data with
  | [] => ""
  | c :: rest =>
    match beforeLastDot rest with
    | some s => String.mk (c :: s)
    | none => String.mk (c :: rest)

/-- Model of lines 72-74: `set_extension("json")` on the entry's path
followed by `file_name()`.  `set_extension` replaces the Rust extension
of the final component (appending ".json" when the component has no
Rust extension); `file_name()` is `none` only for a path ending in
"..", which is what the `ok_or` on line 74 guards against. -/
def targetFileName (name : String) : Option String :=
  if name = ".." then none
  else some (rustFileStem name ++ ".json")

/-- The conversion attempt for one eligible directory entry
(lines 72-75): derive the destination file name, join it onto the
output directory, and invoke `convert`. -/
def processEntry (fs : FS) (from_path to_path : FsPath) (name : String) :
    List Eff × Except Error Unit :=
  match targetFileName name with
  | none => ([], .error (.Io "Failed to create an outfile with a .json extension"))
  | some new_name => convert fs (from_path.join name) (to_path.join new_name)

/-- One item of a directory listing, as `walkdir` yields it: an error
item, or an entry with its file name and whether it is a regular file. -/
inductive DirItem where
  | err (msg : String)
  | entry (name : String) (isFile : Bool)

/-- Model of `convert_dir` (src/main.rs lines 64-81) over the listing of
the input directory's direct children: an `Err` item from the walker is
skipped by the `if let Ok(entry)` on line 68; an entry that is a regular
file with an eligible name is converted, and the `?` operators on lines
74-75 abort the whole batch at the first failure; every other entry is
skipped. -/
def convert_dir (fs : FS) (listing : List DirItem) (from_path to_path : FsPath) :
    List Eff × Except Error Unit :=
  match listing with
  | [] => ([], .ok ())
  | .err _ :: rest => convert_dir fs rest from_path to_path
  | .entry name isFile :: rest =>
    if isFile && eligibleName name then
      match processEntry fs from_path to_path name with
      | (tr, .error e) => (tr, .error e)
      | (tr, .ok _) =>
        let r := convert_dir fs rest from_path to_path
        (tr ++ r.1, r.2)
    else convert_dir fs rest from_path to_path

/-- Destination paths of the write effects of a trace, in order. -/
def writtenPaths (trace : List Eff) : List FsPath :=
  trace.filterMap fun e =>
    match e with
    | .write p _ => some p
    | _ => none

/-- Follows the spec's words, not the source: the destination file name
obtained by replacing the eligible name's extension — the ".yaml" or
".yml" suffix that made it eligible — with ".json", keeping the base
name otherwise unchanged. -/
def specDerivedName (name : String) : String :=
  if strEndsWith name ".yaml" then name.dropRight 5 ++ ".json"
  else if strEndsWith name ".yml" then name.dropRight 4 ++ ".json"
  else name

/-- Directory-scenario filesystem: the output directory `out` exists;
the input directory `in` holds the files `a.yaml` and `b.yml` with valid
documents and a non-eligible `c.txt`. -/
def dirFs : FS :=
  { existing := [["out"]],
    files := [(["in", "a.yaml"], Yaml.map [("title", Yaml.str "a")]),
              (["in", "b.yml"], Yaml.map [("title", Yaml.str "b")]),
              (["in", "c.txt"], Yaml.str "junk")] }

/-- Direct children of the scenario input directory: two eligible files,
a non-eligible file, and a subdirectory. -/
def dirListing : List DirItem :=
  [DirItem.entry "a.yaml" true, DirItem.entry "b.yml" true,
   DirItem.entry "c.txt" true, DirItem.entry "sub" false]

/-- Batch-abort scenario filesystem: three eligible files of which the
second, `b.yaml`, is malformed (its content is a bare scalar, not a
mapping). -/
def batchFs : FS :=
  { existing := [["out"]],
    files := [(["in", "a.yaml"], Yaml.map [("title", Yaml.str "a")]),
              (["in", "b.yaml"], Yaml.str "malformed"),
              (["in", "c.yaml"], Yaml.map [("title", Yaml.str "c")])] }

/-- Direct children for the batch-abort scenario. -/
def batchListing : List DirItem :=
  [DirItem.entry "a.yaml" true, DirItem.entry "b.yaml" true,
   DirItem.entry "c.yaml" true]

/-- Enumeration-error scenario filesystem: one valid eligible file. -/
def enumErrFs : FS :=
  { existing := [["out"]],
    files := [(["in", "a.yaml"], Yaml.map [("title", Yaml.str "a")])] }

/-- Filesystem with no entries at all. -/
def fsEmpty : FS := { existing := [], files := [] }

/-- Filesystem whose input file exists but whose output directory does
not. -/
def fsNoOut : FS :=
  { existing := [],
    files := [(["in", "a.yaml"], Yaml.map [("title", Yaml.str "a")])] }

/-- Extensionality for strings via their character lists. -/
theorem String.myExt {s t : String} (h : s.data = t.data) : s = t := by
  cases s; cases t; exact congrArg String.mk h

mutual

/-- Decoding the serialized form of a document recovers it. -/
theorem notes_roundtrip_aux : ∀ d : Notes, notesFromYaml d.toYamlValue = Except.ok d
  | ⟨t, none⟩ => by
      simp [Notes.toYamlValue, notesFromYaml, fieldsFromKvs, Bind.bind, Pure.pure,
        Except.bind, Except.pure]
  | ⟨t, some children⟩ => by
      have h := notesList_roundtrip_aux children
      simp [Notes.toYamlValue, notesFromYaml, fieldsFromKvs, h, Bind.bind, Pure.pure,
        Except.bind, Except.pure]

/-- Decoding the serialized forms of a list of documents recovers the list. -/
theorem notesList_roundtrip_aux : ∀ l : List Notes,
    notesListFromYaml (notesListToYaml l) = Except.ok l
  | [] => by simp [notesListToYaml, notesListFromYaml, Pure.pure, Except.pure]
  | d :: rest => by
      have h1 := notes_roundtrip_aux d
      have h2 := notesList_roundtrip_aux rest
      simp [notesListToYaml, notesListFromYaml, h1, h2, Bind.bind, Pure.pure,
        Except.bind, Except.pure]

end

/-- Claim C1: for every finite Document tree `d`, decoding the
source-format (YAML) serialization of `d` yields exactly `d`; since the
statement holds for every `d`, it holds in particular both for a `d`
whose children list is absent (serialized as null, decoded back to
`none`) and for one whose children list is present but empty (serialized
as the empty sequence, decoded back to `some []`), so the two states are
preserved through the round trip. -/
theorem C1_yaml_roundtrip (d : Notes) :
    notesFromYaml d.toYamlValue = Except.ok d :=
  notes_roundtrip_aux d

/-- If no entry of the mapping is keyed "title", the field visitor leaves
the title accumulator untouched. -/
theorem fieldsFromKvs_no_title (kvs : List (String × Yaml)) :
    ∀ nOpt r, (∀ p ∈ kvs, p.1 ≠ "title") →
    fieldsFromKvs kvs none nOpt = Except.ok r → r.1 = none := by
  induction kvs with
  | nil =>
      intro nOpt r _ hok
      simp [fieldsFromKvs, Pure.pure, Except.pure] at hok
      simp [← hok]
  | cons p rest ih =>
      intro nOpt r hkeys hok
      obtain ⟨k, v⟩ := p
      have hk : k ≠ "title" := by
        have := hkeys (k, v) (List.mem_cons_self _ _)
        simpa using this
      have hrest : ∀ p ∈ rest, p.1 ≠ "title" := fun q hq =>
        hkeys q (List.mem_cons_of_mem _ hq)
      unfold fieldsFromKvs at hok
      split at hok
      · exact absurd (by assumption) hk
      · split at hok
        · split at hok
          · simp [throw, throwThe, MonadExceptOf.throw] at hok
          · split at hok
            · exact ih _ r hrest hok
            · rename_i items
              cases hnl : notesListFromYaml items with
              | error e =>
                  rw [hnl] at hok
                  simp [Bind.bind, Except.bind] at hok
              | ok children =>
                  rw [hnl] at hok
                  simp only [Bind.bind, Except.bind] at hok
                  exact ih _ r hrest hok
            · simp [throw, throwThe, MonadExceptOf.throw] at hok
        · exact ih _ r hrest hok

/-- If some entry of the mapping is keyed "title" with a non-string
value, the field visitor fails. -/
theorem fieldsFromKvs_bad_title (kvs : List (String × Yaml)) :
    ∀ tOpt nOpt, (∃ p ∈ kvs, p.1 = "title" ∧ p.2.isStr = false) →
    (fieldsFromKvs kvs tOpt nOpt).isOk = false := by
  induction kvs with
  | nil => intro tOpt nOpt h; simp at h
  | cons p rest ih =>
      intro tOpt nOpt h
      obtain ⟨k, v⟩ := p
      rcases h with ⟨q, hq, hqt, hqs⟩
      unfold fieldsFromKvs
      split
      · rename_i hkt
        cases tOpt with
        | some _ => simp [throw, throwThe, MonadExceptOf.throw, Except.isOk, Except.toBool]
        | none =>
          cases v with
          | str s =>
              rcases List.mem_cons.mp hq with heq | hmem
              · rw [heq] at hqs
                simp [Yaml.isStr] at hqs
              · exact ih _ _ ⟨q, hmem, hqt, hqs⟩
          | null => simp [throw, throwThe, MonadExceptOf.throw, Except.isOk, Except.toBool]
          | bool b => simp [throw, throwThe, MonadExceptOf.throw, Except.isOk, Except.toBool]
          | int n => simp [throw, throwThe, MonadExceptOf.throw, Except.isOk, Except.toBool]
          | seq items => simp [throw, throwThe, MonadExceptOf.throw, Except.isOk, Except.toBool]
          | map kvs2 => simp [throw, throwThe, MonadExceptOf.throw, Except.isOk, Except.toBool]
      · rename_i hknot
        have hmem : q ∈ rest := by
          rcases List.mem_cons.mp hq with heq | hmem
          · exfalso
            apply hknot
            rw [heq] at hqt
            simpa using hqt
          · exact hmem
        split
        · cases nOpt with
          | some _ => simp [throw, throwThe, MonadExceptOf.throw, Except.isOk, Except.toBool]
          | none =>
            cases v with
            | null => exact ih _ _ ⟨q, hmem, hqt, hqs⟩
            | seq items =>
                cases hnl : notesListFromYaml items with
                | error e => simp [hnl, Bind.bind, Except.bind, Except.isOk, Except.toBool]
                | ok children =>
                    simp only [hnl, Bind.bind, Except.bind]
                    exact ih _ _ ⟨q, hmem, hqt, hqs⟩
            | bool b => simp [throw, throwThe, MonadExceptOf.throw, Except.isOk, Except.toBool]
            | int n => simp [throw, throwThe, MonadExceptOf.throw, Except.isOk, Except.toBool]
            | str s => simp [throw, throwThe, MonadExceptOf.throw, Except.isOk, Except.toBool]
            | map kvs2 => simp [throw, throwThe, MonadExceptOf.throw, Except.isOk, Except.toBool]
        · exact ih _ _ ⟨q, hmem, hqt, hqs⟩

/-- Claim C7: decoding fails when the required `title` field is missing,
regardless of the other fields present, and when `title` is present but
bound to a non-string value such as a number or a list. -/
theorem C7_decode_requires_string_title (kvs : List (String × Yaml))
    (h : (∀ p ∈ kvs, p.1 ≠ "title") ∨
         (∃ p ∈ kvs, p.1 = "title" ∧ p.2.isStr = false)) :
    (notesFromYaml (Yaml.map kvs)).isOk = false := by
  rcases h with hno | hbad
  · unfold notesFromYaml
    cases hf : fieldsFromKvs kvs none none with
    | error e => simp [Bind.bind, Except.bind, Except.isOk, Except.toBool]
    | ok r =>
        obtain ⟨r1, r2⟩ := r
        have hr := fieldsFromKvs_no_title kvs none (r1, r2) hno hf
        simp only at hr
        subst hr
        simp [Bind.bind, Except.bind, throw, throwThe, MonadExceptOf.throw,
          Except.isOk, Except.toBool]
  · have hbadr := fieldsFromKvs_bad_title kvs none none hbad
    unfold notesFromYaml
    cases hf : fieldsFromKvs kvs none none with
    | error e => simp [Bind.bind, Except.bind, Except.isOk, Except.toBool]
    | ok r =>
        rw [hf] at hbadr
        simp [Except.isOk, Except.toBool] at hbadr

/-- Witness for C7: a mapping with only a `notes` field (title missing),
and a mapping whose title is the number 3, are both rejected. -/
theorem C7_decode_requires_string_title_witness :
    (notesFromYaml (Yaml.map [("notes", Yaml.null)])).isOk = false ∧
    (notesFromYaml (Yaml.map [("title", Yaml.int 3)])).isOk = false :=
  ⟨C7_decode_requires_string_title [("notes", Yaml.null)]
      (Or.inl (by
        intro p hp
        rw [List.mem_singleton] at hp
        subst hp
        decide)),
   C7_decode_requires_string_title [("title", Yaml.int 3)]
      (Or.inr ⟨("title", Yaml.int 3), List.mem_cons_self _ _, rfl, rfl⟩)⟩

/-- Inserting an entry with an unknown key anywhere in the mapping does
not change what the field visitor computes. -/
theorem fieldsFromKvs_skip_unknown (k : String) (v : Yaml)
    (hk1 : k ≠ "title") (hk2 : k ≠ "notes") (kvs1 : List (String × Yaml)) :
    ∀ kvs2 tOpt nOpt,
    fieldsFromKvs (kvs1 ++ (k, v) :: kvs2) tOpt nOpt =
      fieldsFromKvs (kvs1 ++ kvs2) tOpt nOpt := by
  induction kvs1 with
  | nil =>
      intro kvs2 tOpt nOpt
      simp only [List.nil_append]
      conv_lhs => rw [fieldsFromKvs.eq_def]
      simp only
      rw [if_neg hk1, if_neg hk2]
  | cons p rest ih =>
      intro kvs2 tOpt nOpt
      obtain ⟨k', v'⟩ := p
      simp only [List.cons_append]
      unfold fieldsFromKvs
      by_cases h1 : k' = "title"
      · simp only [h1, if_true, eq_self_iff_true]
        cases tOpt with
        | some _ => rfl
        | none =>
          cases v' with
          | str s => exact ih _ _ _
          | null => rfl
          | bool b => rfl
          | int n => rfl
          | seq items => rfl
          | map kvs3 => rfl
      · by_cases h2 : k' = "notes"
        · simp only [h1, h2, if_false, if_true, eq_self_iff_true, if_neg h1]
          cases nOpt with
          | some _ => rfl
          | none =>
            cases v' with
            | null => exact ih _ _ _
            | seq items =>
                cases hnl : notesListFromYaml items with
                | error e => simp [hnl, Bind.bind, Except.bind]
                | ok children => simp only [hnl, Bind.bind, Except.bind]; exact ih _ _ _
            | bool b => rfl
            | int n => rfl
            | str s => rfl
            | map kvs3 => rfl
        · simp only [if_neg h1, if_neg h2]
          exact ih _ _ _

/-- Claim C9: unknown extra fields are tolerated: inserting an entry
with a key other than `title` and `notes` at any position of the
top-level mapping leaves the decoding result unchanged (nested mappings
are decoded by this same function, so the statement covers every mapping
of the tree); in particular a decode that succeeded still succeeds with
the same Document, which by its type carries only `title` and
children. -/
theorem C9_unknown_fields_ignored (kvs1 kvs2 : List (String × Yaml))
    (k : String) (v : Yaml) (hk1 : k ≠ "title") (hk2 : k ≠ "notes") :
    notesFromYaml (Yaml.map (kvs1 ++ (k, v) :: kvs2)) =
      notesFromYaml (Yaml.map (kvs1 ++ kvs2)) := by
  unfold notesFromYaml
  rw [fieldsFromKvs_skip_unknown k v hk1 hk2 kvs1 kvs2 none none]

/-- Witness for C9: adding an `extra` field to a valid document does not
change the decode result. -/
theorem C9_unknown_fields_ignored_witness :
    notesFromYaml (Yaml.map ([("title", Yaml.str "t")] ++ ("extra", Yaml.null) :: [])) =
      notesFromYaml (Yaml.map ([("title", Yaml.str "t")] ++ [])) :=
  C9_unknown_fields_ignored [("title", Yaml.str "t")] [] "extra" Yaml.null
    (by decide) (by decide)

/-- Shape of the serialized document: an object whose first field is
`title` and whose second field is `notes`, in declaration order. -/
theorem to_json_shape (d : Notes) : ∃ rest : String,
    Notes.to_json d =
      "\x7b\"title\":" ++ renderString d.title ++ ",\"notes\":" ++ rest ++ "\x7d" := by
  obtain ⟨t, n⟩ := d
  cases n with
  | none =>
      refine ⟨"null", ?_⟩
      apply String.myExt
      simp [Notes.to_json, Notes.toJsonValue, Json.render, renderObj, renderString,
        Notes.title, String.data_append, escapeString, escapeChar, String.singleton]
  | some l =>
      refine ⟨"[" ++ renderArr (notesListToJson l) ++ "]", ?_⟩
      apply String.myExt
      simp [Notes.to_json, Notes.toJsonValue, Json.render, renderObj, renderString,
        Notes.title, String.data_append, escapeString, escapeChar, String.singleton]

/-- Claim C8: encoding is deterministic — `Notes::to_json` is a pure
function, so any two encodings of equal Documents are byte-identical —
and the serialized object lists the `title` field before the `notes`
(children) field, in declaration order. -/
theorem C8_encode_deterministic (d₁ d₂ : Notes) (h : d₁ = d₂) :
    Notes.to_json d₁ = Notes.to_json d₂ ∧
    ∃ rest : String,
      Notes.to_json d₁ =
        "\x7b\"title\":" ++ renderString d₁.title ++ ",\"notes\":" ++ rest ++ "\x7d" :=
  ⟨congrArg Notes.to_json h, to_json_shape d₁⟩

/-- Witness for C8 at a concrete document. -/
theorem C8_encode_deterministic_witness :
    Notes.to_json (Notes.mk "a" none) = Notes.to_json (Notes.mk "a" none) ∧
    ∃ rest : String,
      Notes.to_json (Notes.mk "a" none) =
        "\x7b\"title\":" ++ renderString (Notes.mk "a" none).title ++
          ",\"notes\":" ++ rest ++ "\x7d" :=
  C8_encode_deterministic (Notes.mk "a" none) (Notes.mk "a" none) rfl

/-- Claim C10: a Document whose children list is absent still encodes
with an explicit `notes` field bound to null — the field is not omitted;
in particular the document titled "leaf" with no children encodes as
exactly the bytes the claim displays. -/
theorem C10_absent_children_encode_null :
    (∀ t : String,
      Notes.to_json (Notes.mk t none) =
        "\x7b\"title\":" ++ renderString t ++ ",\"notes\":null\x7d") ∧
    Notes.to_json (Notes.mk "leaf" none) = "\x7b\"title\":\"leaf\",\"notes\":null\x7d" := by
  constructor
  · intro t
    apply String.myExt
    simp [Notes.to_json, Notes.toJsonValue, Json.render, renderObj, renderString,
      String.data_append, escapeString, escapeChar, String.singleton]
  · rfl

/-- Claim C5: converting from an input path that does not refer to an
existing filesystem entry fails with an `Io` error before any decode
attempt and performs no filesystem effects at all — the trace is empty,
so in particular no write happens. -/
theorem C5_missing_input (fs : FS) (from_path to_path : FsPath)
    (h : fs.existsPath from_path = false) :
    convert fs from_path to_path =
      ([], Except.error (Error.Io "infile does not exist")) := by
  simp [convert, h]

/-- Witness for C5: on the empty filesystem the conversion fails with
the input-missing `Io` error and an empty effect trace. -/
theorem C5_missing_input_witness :
    FS.existsPath fsEmpty ["in", "a.yaml"] = false ∧
    convert fsEmpty ["in", "a.yaml"] ["out", "a.json"] =
      ([], Except.error (Error.Io "infile does not exist")) :=
  ⟨by decide, C5_missing_input fsEmpty ["in", "a.yaml"] ["out", "a.json"] (by decide)⟩

/-- Claim C6: once the input exists and the output path has a parent,
the parent-directory precondition fails with an `Io` error and an empty
trace (no write, no directory creation — the model has no
directory-creating effect at all) exactly when the parent does not
exist, and passes (the conversion proceeds to read the input) exactly
when it does. -/
theorem C6_output_dir_precondition (fs : FS) (from_path to_path parent_dir : FsPath)
    (hin : fs.existsPath from_path = true)
    (hp : to_path.parent = some parent_dir) :
    (fs.existsPath parent_dir = false →
      convert fs from_path to_path =
        ([], Except.error (Error.Io "outfile directory does not exists"))) ∧
    (fs.existsPath parent_dir = true →
      (convert fs from_path to_path).1.head? = some (Eff.read from_path)) := by
  constructor
  · intro hno
    simp [convert, hin, hp, hno]
  · intro hyes
    cases hr : fs.readYaml from_path with
    | none => simp [convert, hin, hp, hyes, hr]
    | some y =>
        cases hn : notesFromYaml y with
        | error e => simp [convert, hin, hp, hyes, hr, hn]
        | ok notes => simp [convert, hin, hp, hyes, hr, hn]

/-- Witness for C6: with an existing input but no `out` directory, the
conversion fails with the output-directory `Io` error and no write. -/
theorem C6_output_dir_precondition_witness :
    convert fsNoOut ["in", "a.yaml"] ["out", "a.json"] =
      ([], Except.error (Error.Io "outfile directory does not exists")) :=
  (C6_output_dir_precondition fsNoOut ["in", "a.yaml"] ["out", "a.json"] ["out"]
    (by decide) (by decide)).1 (by decide)

/-- Claim C3: the batch runner converts exactly the entries that are
regular files with an eligible name — any entry that is not a regular
file or whose name does not end in ".yaml" or ".yml" is skipped, the
suffix match is case-sensitive ("a.YAML" is not eligible) — and on the
directory holding `a.yaml`, `b.yml`, `c.txt` and the subdirectory `sub`
it succeeds writing exactly the two outputs `a.json` and `b.json`.
Depth-1 enumeration is the modelled meaning of the listing argument:
`walkdir` with `min_depth(1).max_depth(1)` yields the direct children
only, so `sub`'s contents never appear. -/
theorem C3_filter_and_scenario :
    (∀ (fs : FS) (name : String) (isFile : Bool) (rest : List DirItem) (f t : FsPath),
      (isFile && eligibleName name) = false →
      convert_dir fs (DirItem.entry name isFile :: rest) f t =
        convert_dir fs rest f t) ∧
    eligibleName "a.YAML" = false ∧
    writtenPaths (convert_dir dirFs dirListing ["in"] ["out"]).1 =
      [["out", "a.json"], ["out", "b.json"]] ∧
    (convert_dir dirFs dirListing ["in"] ["out"]).2 = Except.ok () := by
  refine ⟨?_, by decide, by rfl, by rfl⟩
  intro fs name isFile rest f t h
  simp [convert_dir, h]

/-- Witness for C3: the non-eligible `c.txt` entry is skipped. -/
theorem C3_filter_and_scenario_witness :
    convert_dir dirFs [DirItem.entry "c.txt" true] ["in"] ["out"] =
      convert_dir dirFs [] ["in"] ["out"] :=
  C3_filter_and_scenario.1 dirFs "c.txt" true [] ["in"] ["out"] (by decide)

/-- Counterexample to claim C2 as stated: a directory-enumeration error
(the first item of the listing) does not abort the batch — `convert_dir`
silently skips it (the source's `if let Ok(entry)` has no else branch),
continues to the next file, converts it, and returns success. -/
theorem C2_enumeration_error_counterexample :
    (convert_dir enumErrFs
        [DirItem.err "permission denied", DirItem.entry "a.yaml" true]
        ["in"] ["out"]).2 = Except.ok () ∧
    writtenPaths (convert_dir enumErrFs
        [DirItem.err "permission denied", DirItem.entry "a.yaml" true]
        ["in"] ["out"]).1 = [["out", "a.json"]] := ⟨rfl, rfl⟩

/-- Claim C2 as amended: enumeration errors are silently skipped; the
first extension-derivation or conversion failure aborts the whole batch
immediately with that error (the result does not depend on the remaining
entries); and in the three-file scenario where the second eligible file
is malformed, the batch fails after writing only `a.json`, and the third
file `c.yaml` is never even read. -/
theorem C2_first_failure_aborts :
    (∀ (fs : FS) (m : String) (rest : List DirItem) (f t : FsPath),
      convert_dir fs (DirItem.err m :: rest) f t = convert_dir fs rest f t) ∧
    (∀ (fs : FS) (name : String) (rest : List DirItem) (f t : FsPath)
        (tr : List Eff) (e : Error),
      eligibleName name = true →
      processEntry fs f t name = (tr, Except.error e) →
      convert_dir fs (DirItem.entry name true :: rest) f t = (tr, Except.error e)) ∧
    (convert_dir batchFs batchListing ["in"] ["out"]).2 =
      Except.error (Error.DeError "invalid type: expected struct Notes") ∧
    writtenPaths (convert_dir batchFs batchListing ["in"] ["out"]).1 =
      [["out", "a.json"]] ∧
    Eff.read ["in", "c.yaml"] ∉ (convert_dir batchFs batchListing ["in"] ["out"]).1 := by
  refine ⟨?_, ?_, by rfl, by rfl, by decide⟩
  · intro fs m rest f t
    simp [convert_dir]
  · intro fs name rest f t tr e hel hproc
    simp [convert_dir, hel, hproc]

/-- Witness for the amended C2: skipping a concrete enumeration error,
and aborting on the malformed `b.yaml` with `c.yaml` still pending. -/
theorem C2_first_failure_aborts_witness :
    convert_dir batchFs [DirItem.err "locked"] ["in"] ["out"] =
      convert_dir batchFs [] ["in"] ["out"] ∧
    convert_dir batchFs [DirItem.entry "b.yaml" true, DirItem.entry "c.yaml" true]
        ["in"] ["out"] =
      ([Eff.read ["in", "b.yaml"], Eff.decode],
        Except.error (Error.DeError "invalid type: expected struct Notes")) :=
  ⟨C2_first_failure_aborts.1 batchFs "locked" [] ["in"] ["out"],
   C2_first_failure_aborts.2.1 batchFs "b.yaml" [DirItem.entry "c.yaml" true]
     ["in"] ["out"] [Eff.read ["in", "b.yaml"], Eff.decode]
     (Error.DeError "invalid type: expected struct Notes") (by decide) (by rfl)⟩

/-- The characters before the last '.' of an appended list whose suffix
after that dot contains no further dot. -/
theorem beforeLastDot_append (xs ys : List Char) (h : beforeLastDot ys = none) :
    beforeLastDot (xs ++ '.' :: ys) = some xs := by
  induction xs with
  | nil => simp [beforeLastDot, h]
  | cons c cs ih => simp [beforeLastDot, ih]

/-- Appending a dot-led extension to a nonempty name leaves exactly the
name as the Rust file stem. -/
theorem rustFileStem_append (s : String) (hs : s ≠ "") (ext : List Char)
    (hext : beforeLastDot ext = none) :
    rustFileStem (s ++ String.mk ('.' :: ext)) = s := by
  obtain ⟨l⟩ := s
  cases l with
  | nil => exact absurd rfl hs
  | cons c cs =>
      show rustFileStem (String.mk ((c :: cs) ++ '.' :: ext)) = String.mk (c :: cs)
      unfold rustFileStem
      simp only [List.cons_append]
      rw [beforeLastDot_append cs ext hext]

/-- A name ending in ".yaml" is never "..". -/
theorem append_yaml_ne_dotdot (s : String) : s ++ ".yaml" ≠ ".." := by
  intro h
  have := congrArg (fun x => x.data.length) h
  simp [String.data_append] at this

/-- A name ending in ".yml" is never "..". -/
theorem append_yml_ne_dotdot (s : String) : s ++ ".yml" ≠ ".." := by
  intro h
  have := congrArg (fun x => x.data.length) h
  simp [String.data_append] at this

/-- Every name of the form `s ++ ".yaml"` passes the eligibility filter. -/
theorem eligible_append_yaml (s : String) : eligibleName (s ++ ".yaml") = true := by
  unfold eligibleName strEndsWith
  simp [String.data_append, Nat.add_sub_cancel, List.drop_left]

/-- Every name of the form `s ++ ".yml"` passes the eligibility filter. -/
theorem eligible_append_yml (s : String) : eligibleName (s ++ ".yml") = true := by
  unfold eligibleName strEndsWith
  simp [String.data_append, Nat.add_sub_cancel, List.drop_left]

/-- Derived name for a ".yaml" name with a nonempty base. -/
theorem target_append_yaml (s : String) (hs : s ≠ "") :
    targetFileName (s ++ ".yaml") = some (s ++ ".json") := by
  unfold targetFileName
  rw [if_neg (append_yaml_ne_dotdot s)]
  have h : (".yaml" : String) = String.mk ('.' :: ['y', 'a', 'm', 'l']) := rfl
  rw [h, rustFileStem_append s hs ['y', 'a', 'm', 'l'] (by decide)]

/-- Derived name for a ".yml" name with a nonempty base. -/
theorem target_append_yml (s : String) (hs : s ≠ "") :
    targetFileName (s ++ ".yml") = some (s ++ ".json") := by
  unfold targetFileName
  rw [if_neg (append_yml_ne_dotdot s)]
  have h : (".yml" : String) = String.mk ('.' :: ['y', 'm', 'l']) := rfl
  rw [h, rustFileStem_append s hs ['y', 'm', 'l'] (by decide)]

/-- Counterexample to claim C4 as stated: the file named exactly ".yaml"
is kept by the filter, but its derived destination name is ".yaml.json"
— the code appends ".json" because Rust treats a leading-dot-only name
as having no extension — whereas replacing the ".yaml" extension as the
claim describes would give ".json". -/
theorem C4_derived_name_counterexample :
    eligibleName ".yaml" = true ∧
    targetFileName ".yaml" = some ".yaml.json" ∧
    specDerivedName ".yaml" = ".json" ∧
    (".yaml.json" : String) ≠ ".json" :=
  ⟨by decide, by decide, by decide, by decide⟩

/-- Claim C4 as amended: for every eligible name with a nonempty base —
every name of the form `s ++ ".yaml"` or `s ++ ".yml"` with `s` nonempty
— the derived destination name is `s ++ ".json"`, the extension replaced
and the base otherwise unchanged; the dotfile names exactly ".yaml" and
".yml" instead get ".json" appended; and the derived name is joined onto
the output directory to form the destination path handed to the file
converter. -/
theorem C4_derived_name :
    (∀ s : String, s ≠ "" →
      eligibleName (s ++ ".yaml") = true ∧
      targetFileName (s ++ ".yaml") = some (s ++ ".json") ∧
      eligibleName (s ++ ".yml") = true ∧
      targetFileName (s ++ ".yml") = some (s ++ ".json")) ∧
    targetFileName ".yaml" = some ".yaml.json" ∧
    targetFileName ".yml" = some ".yml.json" ∧
    (∀ (fs : FS) (f t : FsPath) (name new_name : String),
      targetFileName name = some new_name →
      processEntry fs f t name = convert fs (f.join name) (t.join new_name)) := by
  refine ⟨?_, by decide, by decide, ?_⟩
  · intro s hs
    exact ⟨eligible_append_yaml s, target_append_yaml s hs,
      eligible_append_yml s, target_append_yml s hs⟩
  · intro fs f t name new_name h
    simp [processEntry, h]

/-- Witness for the amended C4 at concrete names. -/
theorem C4_derived_name_witness :
    eligibleName ("a" ++ ".yaml") = true ∧
    targetFileName ("a" ++ ".yaml") = some ("a" ++ ".json") ∧
    processEntry dirFs ["in"] ["out"] "notes.yaml" =
      convert dirFs (FsPath.join ["in"] "notes.yaml")
        (FsPath.join ["out"] "notes.json") :=
  ⟨(C4_derived_name.1 "a" (by decide)).1,
   (C4_derived_name.1 "a" (by decide)).2.1,
   C4_derived_name.2.2.2 dirFs ["in"] ["out"] "notes.yaml" "notes.json" (by decide)⟩
